import Mathlib

/-!
Verification of the volatility-tracker / price-poller repository.

The Python sources (`volatility_tracker.py`, `usdt_scraper.py`) are embedded
shallowly: the pure per-row formulas become functions over `ℝ`, the
`VolatilityData` table becomes a list of records, the conflict-skip insert
becomes a fold, and the two I/O loops (the CoinGecko fetch-with-retry loop and
the scraper tick loop) become pure functions of an environment describing the
responses each network round-trip would return.  Python float arithmetic is
modelled by exact real arithmetic; the float NaN that pandas' `kurtosis`
produces on fewer than four samples is modelled by `Option.none`.
-/

namespace RiskVol

/-- One row of the OHLC candle DataFrame fetched from CoinGecko
(`fetch_coingecko_data` returns columns date/open/high/low/close).
Calendar dates are modelled as integer day numbers. -/
structure OhlcRow where
  date : ℤ
  open_ : ℝ
  high : ℝ
  low : ℝ
  close : ℝ

/-- One row of the `VolatilityData` table
(assetId, symbol, date, open, high, low, close, volatility, kurtosis, mse).
`kurtosis = none` models the NaN float pandas yields on fewer than 4 samples. -/
structure VolRecord where
  assetId : ℕ
  symbol : String
  date : ℤ
  open_ : ℝ
  high : ℝ
  low : ℝ
  close : ℝ
  volatility : ℝ
  kurtosis : Option ℝ
  mse : ℝ

/-- The argument of the square root in `VolatilityTracker.calculate_volatility`:
`term1 = log(high/close)*log(high/open)`, `term2 = log(low/close)*log(low/open)`,
`T = 365`, argument `T * (term1 + term2)`. -/
noncomputable def rogersSatchellArg (row : OhlcRow) : ℝ :=
  let term1 := Real.log (row.high / row.close) * Real.log (row.high / row.open_)
  let term2 := Real.log (row.low / row.close) * Real.log (row.low / row.open_)
  let T : ℝ := 365
  T * (term1 + term2)

/-- `VolatilityTracker.calculate_volatility` applied to one row:
`daily_vol = sqrt(T * (term1 + term2))`. -/
noncomputable def calculate_volatility (row : OhlcRow) : ℝ :=
  Real.sqrt (rogersSatchellArg row)

/-- `VolatilityTracker.calculate_daily_mse`:
`actual_price = (open+high+low+close)/4`, `predicted_price = 1`,
returns `(actual_price - predicted_price) ** 2`. -/
noncomputable def calculate_daily_mse (row : OhlcRow) : ℝ :=
  let actual_price := (row.open_ + row.high + row.low + row.close) / 4
  let predicted_price : ℝ := 1
  (actual_price - predicted_price) ^ 2

/-- `pandas.Series.kurtosis()` (pandas `nanops.nankurt`, exact arithmetic):
with `n` samples, mean `x̄`, `m2 = Σ(x−x̄)²`, `m4 = Σ(x−x̄)⁴`,
`adj = 3(n−1)²/((n−2)(n−3))`, numerator `n(n+1)(n−1)·m4`, denominator
`(n−2)(n−3)·m2²`; returns NaN (here `none`) when `n < 4`, `0` when the
denominator is zero, else `numerator/denominator − adj`. -/
noncomputable def pandasKurtosis (xs : List ℝ) : Option ℝ :=
  let count : ℝ := xs.length
  let mean := xs.sum / count
  let m2 := (xs.map (fun x => (x - mean) ^ 2)).sum
  let m4 := (xs.map (fun x => (x - mean) ^ 4)).sum
  let adj := 3 * (count - 1) ^ 2 / ((count - 2) * (count - 3))
  let numer := count * (count + 1) * (count - 1) * m4
  let denom := (count - 2) * (count - 3) * m2 ^ 2
  if xs.length < 4 then none
  else if denom = 0 then some 0
  else some (numer / denom - adj)

/-- Key comparison used by the primary key `(assetId, date)` of
`VolatilityData` (`VolatilityData_pkey`). -/
def sameKeyB (x r : VolRecord) : Bool :=
  x.assetId == r.assetId && x.date == r.date

/-- One row of the `ON CONFLICT ON CONSTRAINT "VolatilityData_pkey" DO NOTHING`
bulk insert: the row is dropped when its key is already present (also when it
was inserted earlier in the same statement), else appended. -/
def insertSkip (t : List VolRecord) (r : VolRecord) : List VolRecord :=
  if t.any (fun x => sameKeyB x r) then t else t ++ [r]

/-- The record built for one DataFrame row inside
`VolatilityTracker.store_volatility_data`: volatility and mse are computed per
row, the kurtosis scalar is shared by the whole batch. -/
noncomputable def mkRecord (asset_id : ℕ) (symbol : String) (kurt : Option ℝ)
    (row : OhlcRow) : VolRecord :=
  { assetId := asset_id, symbol := symbol, date := row.date,
    open_ := row.open_, high := row.high, low := row.low, close := row.close,
    volatility := calculate_volatility row, kurtosis := kurt,
    mse := calculate_daily_mse row }

/-- `VolatilityTracker.store_volatility_data`: returns unchanged on an empty
DataFrame; otherwise computes the volatility column, one kurtosis scalar over
that column, the mse column, and bulk-inserts with conflict-skip. -/
noncomputable def store_volatility_data (asset_id : ℕ) (symbol : String)
    (df : List OhlcRow) (t : List VolRecord) : List VolRecord :=
  if df.isEmpty then t
  else
    (df.map (mkRecord asset_id symbol
      (pandasKurtosis (df.map calculate_volatility)))).foldl insertSkip t

/-- The table invariant: at most one record per `(assetId, date)` key. -/
def uniqueKeys (t : List VolRecord) : Prop :=
  t.Pairwise (fun x y => ¬(x.assetId = y.assetId ∧ x.date = y.date))

lemma sameKeyB_iff {x r : VolRecord} :
    sameKeyB x r = true ↔ x.assetId = r.assetId ∧ x.date = r.date := by
  simp [sameKeyB]

lemma foldl_insertSkip_exists (rs : List VolRecord) :
    ∀ t, ∃ new, rs.foldl insertSkip t = t ++ new ∧ ∀ r ∈ new, r ∈ rs := by
  induction rs with
  | nil => exact fun t => ⟨[], by simp, by simp⟩
  | cons r rs ih =>
    intro t
    by_cases hk : t.any (fun x => sameKeyB x r) = true
    · obtain ⟨new, heq, hsub⟩ := ih t
      exact ⟨new, by simpa [insertSkip, hk] using heq,
        fun x hx => List.mem_cons_of_mem _ (hsub x hx)⟩
    · obtain ⟨new, heq, hsub⟩ := ih (t ++ [r])
      refine ⟨r :: new, ?_, ?_⟩
      · rw [List.foldl_cons, insertSkip, if_neg hk, heq, List.append_assoc]
        rfl
      · intro x hx
        rcases List.mem_cons.1 hx with h | h
        · exact h ▸ List.mem_cons_self _ _
        · exact List.mem_cons_of_mem _ (hsub x h)

lemma insertSkip_uniqueKeys {t : List VolRecord} (r : VolRecord)
    (h : uniqueKeys t) : uniqueKeys (insertSkip t r) := by
  unfold insertSkip
  by_cases hk : t.any (fun x => sameKeyB x r) = true
  · rw [if_pos hk]; exact h
  · rw [if_neg hk]
    rw [uniqueKeys, List.pairwise_append]
    refine ⟨h, List.pairwise_singleton _ _, ?_⟩
    intro x hx y hy
    rw [List.mem_singleton] at hy
    subst hy
    intro hxy
    exact hk (List.any_eq_true.2 ⟨x, hx, sameKeyB_iff.2 hxy⟩)

lemma foldl_insertSkip_uniqueKeys (rs : List VolRecord) :
    ∀ t, uniqueKeys t → uniqueKeys (rs.foldl insertSkip t) := by
  induction rs with
  | nil => exact fun t h => h
  | cons r rs ih => exact fun t h => ih _ (insertSkip_uniqueKeys r h)

lemma exists_key_insertSkip (t : List VolRecord) (r : VolRecord) :
    ∃ x ∈ insertSkip t r, sameKeyB x r = true := by
  unfold insertSkip
  by_cases hk : t.any (fun x => sameKeyB x r) = true
  · rw [if_pos hk]; exact List.any_eq_true.1 hk
  · rw [if_neg hk]
    exact ⟨r, List.mem_append_right _ (List.mem_singleton_self r),
      sameKeyB_iff.2 ⟨rfl, rfl⟩⟩

lemma exists_key_foldl (rs : List VolRecord) :
    ∀ t, ∀ r ∈ rs, ∃ x ∈ rs.foldl insertSkip t, sameKeyB x r = true := by
  induction rs with
  | nil => intro t r hr; simp at hr
  | cons r0 rs ih =>
    intro t r hr
    rcases List.mem_cons.1 hr with h | h
    · subst h
      obtain ⟨x, hx, hkey⟩ := exists_key_insertSkip t r
      obtain ⟨new, heq, -⟩ := foldl_insertSkip_exists rs (insertSkip t r)
      exact ⟨x, by rw [List.foldl_cons, heq]; exact List.mem_append_left _ hx,
        hkey⟩
    · exact ih (insertSkip t r0) r h

lemma foldl_insertSkip_skip_all (rs : List VolRecord) :
    ∀ t, (∀ r ∈ rs, t.any (fun x => sameKeyB x r) = true) →
      rs.foldl insertSkip t = t := by
  induction rs with
  | nil => intro t _; rfl
  | cons r rs ih =>
    intro t h
    have hr : insertSkip t r = t := by
      rw [insertSkip, if_pos (h r (List.mem_cons_self _ _))]
    rw [List.foldl_cons, hr]
    exact ih t fun x hx => h x (List.mem_cons_of_mem _ hx)

/-! ## C1: the volatility formula -/

/-- C1.  For every row of positive (open, high, low, close),
`calculate_volatility` returns
`sqrt(365 * (ln(high/close)*ln(high/open) + ln(low/close)*ln(low/open)))`,
the Rogers–Satchell daily estimator annualized with the 365-day factor. -/
theorem calculate_volatility_rogers_satchell (row : OhlcRow)
    (ho : 0 < row.open_) (hh : 0 < row.high) (hl : 0 < row.low)
    (hc : 0 < row.close) :
    calculate_volatility row =
      Real.sqrt (365 *
        (Real.log (row.high / row.close) * Real.log (row.high / row.open_) +
         Real.log (row.low / row.close) * Real.log (row.low / row.open_))) := rfl

/-- C1 witness: the formula at the concrete positive row (1, 1.05, 0.98, 1.01). -/
theorem calculate_volatility_rogers_satchell_witness :
    calculate_volatility ⟨0, 1, 1.05, 0.98, 1.01⟩ =
      Real.sqrt (365 *
        (Real.log ((1.05 : ℝ) / 1.01) * Real.log ((1.05 : ℝ) / 1) +
         Real.log ((0.98 : ℝ) / 1.01) * Real.log ((0.98 : ℝ) / 1))) :=
  calculate_volatility_rogers_satchell ⟨0, 1, 1.05, 0.98, 1.01⟩
    (by norm_num) (by norm_num) (by norm_num) (by norm_num)

/-! ## C2: the daily error metric -/

/-- C2.  `calculate_daily_mse` returns `((open+high+low+close)/4 − 1)²`, and on
the row (open=1, high=1.05, low=0.98, close=1.01) it returns exactly 0.0001. -/
theorem calculate_daily_mse_formula :
    (∀ row : OhlcRow,
      calculate_daily_mse row =
        ((row.open_ + row.high + row.low + row.close) / 4 - 1) ^ 2) ∧
    calculate_daily_mse ⟨0, 1, 1.05, 0.98, 1.01⟩ = 0.0001 := by
  constructor
  · intro row; rfl
  · show ((1 + 1.05 + 0.98 + 1.01 : ℝ) / 4 - 1) ^ 2 = 0.0001
    norm_num

/-! ## C4: sign of the square-root argument -/

/-- C4 counterexample.  With open=1, high=2, low=2, close=4 — all strictly
positive, but violating the OHLC ordering — the argument of the square root is
`365·2·ln(1/2)·ln 2 = −730·(ln 2)² < 0`, so the formula yields NaN: the claim's
"no further ordering constraint" is false. -/
theorem rogersSatchellArg_neg_example :
    (0 : ℝ) < 1 ∧ (0 : ℝ) < 2 ∧ (0 : ℝ) < 4 ∧
    rogersSatchellArg ⟨0, 1, 2, 2, 4⟩ < 0 := by
  refine ⟨by norm_num, by norm_num, by norm_num, ?_⟩
  show (365 : ℝ) *
      (Real.log ((2 : ℝ) / 4) * Real.log ((2 : ℝ) / 1) +
       Real.log ((2 : ℝ) / 4) * Real.log ((2 : ℝ) / 1)) < 0
  have h24 : ((2 : ℝ) / 4) = (2 : ℝ)⁻¹ := by norm_num
  have h21 : ((2 : ℝ) / 1) = (2 : ℝ) := by norm_num
  rw [h24, h21, Real.log_inv]
  have hlog : 0 < Real.log 2 := Real.log_pos (by norm_num)
  nlinarith [hlog]

/-- C4 amended.  For rows that are positive *and* satisfy the OHLC ordering
(high ≥ open, high ≥ close, low ≤ open, low ≤ close), the argument of the
square root is non-negative, so the volatility is a real (non-NaN) number. -/
theorem rogersSatchellArg_nonneg_of_ordered (row : OhlcRow)
    (ho : 0 < row.open_) (hl : 0 < row.low) (hc : 0 < row.close)
    (hho : row.open_ ≤ row.high) (hhc : row.close ≤ row.high)
    (hlo : row.low ≤ row.open_) (hlc : row.low ≤ row.close) :
    0 ≤ rogersSatchellArg row := by
  have hh : 0 < row.high := lt_of_lt_of_le hc hhc
  have t1a : 0 ≤ Real.log (row.high / row.close) :=
    Real.log_nonneg ((one_le_div hc).2 hhc)
  have t1b : 0 ≤ Real.log (row.high / row.open_) :=
    Real.log_nonneg ((one_le_div ho).2 hho)
  have t2a : Real.log (row.low / row.close) ≤ 0 :=
    Real.log_nonpos (by positivity) ((div_le_one hc).2 hlc)
  have t2b : Real.log (row.low / row.open_) ≤ 0 :=
    Real.log_nonpos (by positivity) ((div_le_one ho).2 hlo)
  show (0 : ℝ) ≤ 365 *
      (Real.log (row.high / row.close) * Real.log (row.high / row.open_) +
       Real.log (row.low / row.close) * Real.log (row.low / row.open_))
  nlinarith [mul_nonneg t1a t1b, mul_nonneg (neg_nonneg.2 t2a) (neg_nonneg.2 t2b)]

/-- C4 amended, witness: the ordered positive row (1, 1.05, 0.98, 1.01). -/
theorem rogersSatchellArg_nonneg_of_ordered_witness :
    0 ≤ rogersSatchellArg ⟨0, 1, 1.05, 0.98, 1.01⟩ :=
  rogersSatchellArg_nonneg_of_ordered ⟨0, 1, 1.05, 0.98, 1.01⟩
    (by norm_num) (by norm_num) (by norm_num)
    (by norm_num) (by norm_num) (by norm_num) (by norm_num)

/-! ## C3 / C10: what kurtosis is stored, and for which rows -/

/-- A previously stored record, carrying kurtosis 5. -/
noncomputable def r0 : VolRecord := ⟨0, "DAI", 0, 1, 1, 1, 1, 0, some 5, 0⟩

/-- A four-row batch of flat candles (open = high = low = close = 1). -/
def dfC3 : List OhlcRow := [⟨1, 1, 1, 1, 1⟩, ⟨2, 1, 1, 1, 1⟩,
  ⟨3, 1, 1, 1, 1⟩, ⟨4, 1, 1, 1, 1⟩]

lemma calculate_volatility_flat (d : ℤ) :
    calculate_volatility ⟨d, 1, 1, 1, 1⟩ = 0 := by
  have harg : rogersSatchellArg ⟨d, 1, 1, 1, 1⟩ = 0 := by
    show (365 : ℝ) *
        (Real.log ((1 : ℝ) / 1) * Real.log ((1 : ℝ) / 1) +
         Real.log ((1 : ℝ) / 1) * Real.log ((1 : ℝ) / 1)) = 0
    norm_num
  show Real.sqrt (rogersSatchellArg ⟨d, 1, 1, 1, 1⟩) = 0
  rw [harg, Real.sqrt_zero]

lemma pandasKurtosis_five_zeros :
    pandasKurtosis [0, 0, 0, 0, 0] = some 0 := by
  unfold pandasKurtosis
  norm_num

/-- C3 counterexample.  It is not the case that after every store all rows of
the asset carry the kurtosis of the asset's full stored series: starting from a
table holding one record with kurtosis 5 and storing four flat rows (whose
batch kurtosis is 0), the old record still carries 5 while the full series'
kurtosis is 0. -/
theorem store_kurtosis_not_full_series :
    ¬ (∀ (a : ℕ) (s : String) (df : List OhlcRow) (t : List VolRecord),
        ∀ r ∈ store_volatility_data a s df t, r.assetId = a →
          r.kurtosis = pandasKurtosis
            (((store_volatility_data a s df t).filter
              (fun x => x.assetId == a)).map (fun x => x.volatility))) := by
  intro h
  have hstore : store_volatility_data 0 "DAI" dfC3 [r0] =
      r0 :: dfC3.map (mkRecord 0 "DAI"
        (pandasKurtosis (dfC3.map calculate_volatility))) := rfl
  have hmem : r0 ∈ store_volatility_data 0 "DAI" dfC3 [r0] := by
    rw [hstore]; exact List.mem_cons_self _ _
  have h5 := h 0 "DAI" dfC3 [r0] r0 hmem rfl
  have hfilter : ((store_volatility_data 0 "DAI" dfC3 [r0]).filter
      (fun x => x.assetId == 0)).map (fun x => x.volatility) =
      [r0.volatility, calculate_volatility ⟨1, 1, 1, 1, 1⟩,
       calculate_volatility ⟨2, 1, 1, 1, 1⟩,
       calculate_volatility ⟨3, 1, 1, 1, 1⟩,
       calculate_volatility ⟨4, 1, 1, 1, 1⟩] := by
    rw [hstore]; rfl
  rw [hfilter] at h5
  have hzeros : [r0.volatility, calculate_volatility ⟨1, 1, 1, 1, 1⟩,
      calculate_volatility ⟨2, 1, 1, 1, 1⟩,
      calculate_volatility ⟨3, 1, 1, 1, 1⟩,
      calculate_volatility ⟨4, 1, 1, 1, 1⟩] = [0, 0, 0, 0, 0] := by
    have hr0 : r0.volatility = 0 := rfl
    rw [hr0, calculate_volatility_flat, calculate_volatility_flat,
      calculate_volatility_flat, calculate_volatility_flat]
  rw [hzeros, pandasKurtosis_five_zeros] at h5
  have : (5 : ℝ) = 0 := by
    have hr0k : r0.kurtosis = some 5 := rfl
    rw [hr0k] at h5
    exact Option.some.inj h5
  norm_num at this

/-- C3 amended.  Each `store_volatility_data` call leaves the previously
existing rows untouched (they form an unchanged prefix, old kurtosis
included), and every row it appends carries the kurtosis of the volatility
column of that call's input batch only — not of the asset's full series. -/
theorem store_kurtosis_from_batch_only (a : ℕ) (s : String)
    (df : List OhlcRow) (t : List VolRecord) :
    (store_volatility_data a s df t).take t.length = t ∧
    ((store_volatility_data a s df t).drop t.length).map (fun r => r.kurtosis) =
      List.replicate ((store_volatility_data a s df t).length - t.length)
        (pandasKurtosis (df.map calculate_volatility)) := by
  unfold store_volatility_data
  by_cases hdf : df.isEmpty
  · rw [if_pos hdf]
    simp
  · rw [if_neg hdf]
    obtain ⟨new, heq, hsub⟩ := foldl_insertSkip_exists
      (df.map (mkRecord a s (pandasKurtosis (df.map calculate_volatility)))) t
    rw [heq]
    refine ⟨List.take_left t new, ?_⟩
    rw [List.drop_left]
    have hall : ∀ r ∈ new, r.kurtosis =
        pandasKurtosis (df.map calculate_volatility) := by
      intro r hr
      obtain ⟨row, -, hrow⟩ := List.mem_map.1 (hsub r hr)
      rw [← hrow]
      rfl
    rw [List.eq_replicate_iff]
    constructor
    · simp
    · intro b hb
      obtain ⟨r, hr, hrb⟩ := List.mem_map.1 hb
      rw [← hrb]
      exact hall r hr

/-- C10.  For a non-empty input batch, all rows inserted by one
`store_volatility_data` call carry the same kurtosis, namely the kurtosis of
the volatility column of that call's batch, and the pre-existing rows are kept
in front unchanged. -/
theorem store_batch_kurtosis (a : ℕ) (s : String) (df : List OhlcRow)
    (t : List VolRecord) (h : df ≠ []) :
    ∃ new, store_volatility_data a s df t = t ++ new ∧
      ∀ r ∈ new, r.kurtosis = pandasKurtosis (df.map calculate_volatility) := by
  obtain ⟨new, heq, hsub⟩ := foldl_insertSkip_exists
    (df.map (mkRecord a s (pandasKurtosis (df.map calculate_volatility)))) t
  refine ⟨new, ?_, ?_⟩
  · rw [store_volatility_data, if_neg (by simpa using h)]
    exact heq
  · intro r hr
    obtain ⟨row, -, hrow⟩ := List.mem_map.1 (hsub r hr)
    rw [← hrow]
    rfl

/-- C10 witness: a singleton batch stored into the empty table. -/
theorem store_batch_kurtosis_witness :
    ([⟨0, 1, 1, 1, 1⟩] : List OhlcRow) ≠ [] ∧
    ∃ new, store_volatility_data 0 "USDT" [⟨0, 1, 1, 1, 1⟩] [] = [] ++ new ∧
      ∀ r ∈ new, r.kurtosis =
        pandasKurtosis ([⟨0, 1, 1, 1, 1⟩].map calculate_volatility) :=
  ⟨by simp, store_batch_kurtosis 0 "USDT" [⟨0, 1, 1, 1, 1⟩] [] (by simp)⟩

/-! ## C7: key uniqueness and idempotence -/

/-- C7.  Conflict-skip insertion preserves the at-most-one-record-per-
`(assetId, date)` invariant, and running the same store twice leaves the table
exactly as after the first run (idempotence). -/
theorem store_unique_and_idempotent (a : ℕ) (s : String) (df : List OhlcRow)
    (t : List VolRecord) :
    (uniqueKeys t → uniqueKeys (store_volatility_data a s df t)) ∧
    store_volatility_data a s df (store_volatility_data a s df t) =
      store_volatility_data a s df t := by
  constructor
  · intro h
    unfold store_volatility_data
    by_cases hdf : df.isEmpty
    · rw [if_pos hdf]; exact h
    · rw [if_neg hdf]
      exact foldl_insertSkip_uniqueKeys _ t h
  · by_cases hdf : df.isEmpty
    · simp [store_volatility_data, hdf]
    · have hstep : store_volatility_data a s df t =
          (df.map (mkRecord a s (pandasKurtosis
            (df.map calculate_volatility)))).foldl insertSkip t := by
        rw [store_volatility_data, if_neg hdf]
      rw [hstep]
      have h2 : store_volatility_data a s df
          ((df.map (mkRecord a s (pandasKurtosis
            (df.map calculate_volatility)))).foldl insertSkip t) =
          (df.map (mkRecord a s (pandasKurtosis
            (df.map calculate_volatility)))).foldl insertSkip
            ((df.map (mkRecord a s (pandasKurtosis
              (df.map calculate_volatility)))).foldl insertSkip t) := by
        rw [store_volatility_data, if_neg hdf]
      rw [h2]
      apply foldl_insertSkip_skip_all
      intro r hr
      obtain ⟨x, hx, hkey⟩ := exists_key_foldl _ t r hr
      exact List.any_eq_true.2 ⟨x, hx, hkey⟩

/-- C7 witness: storing a singleton batch into the empty table preserves key
uniqueness, and the double store equals the single store. -/
theorem store_unique_and_idempotent_witness :
    uniqueKeys ([] : List VolRecord) ∧
    uniqueKeys (store_volatility_data 0 "USDT" [⟨0, 1, 1, 1, 1⟩] []) ∧
    store_volatility_data 0 "USDT" [⟨0, 1, 1, 1, 1⟩]
        (store_volatility_data 0 "USDT" [⟨0, 1, 1, 1, 1⟩] []) =
      store_volatility_data 0 "USDT" [⟨0, 1, 1, 1, 1⟩] [] :=
  ⟨List.Pairwise.nil,
   (store_unique_and_idempotent 0 "USDT" [⟨0, 1, 1, 1, 1⟩] []).1
     List.Pairwise.nil,
   (store_unique_and_idempotent 0 "USDT" [⟨0, 1, 1, 1, 1⟩] []).2⟩

/-! ## C5: the CoinGecko fetch retry loop -/

/-- What one HTTP round-trip of `fetch_coingecko_data` can produce: a 200 with
a parsed candle table, a 429 with an optional `Retry-After` value in seconds,
another non-success status code, or a raised exception. -/
inductive ApiResponse where
  | ok (rows : List OhlcRow)
  | rateLimited (retryAfter : Option ℕ)
  | failStatus (code : ℕ)
  | exn

/-- Whether a response is an HTTP 429. -/
def ApiResponse.isRL : ApiResponse → Bool
  | .rateLimited _ => true
  | _ => false

/-- Observable outcome of one `fetch_coingecko_data` call: the returned value,
the `time.sleep` durations performed, and how many HTTP requests were made. -/
structure FetchTrace where
  result : Option (List OhlcRow)
  sleeps : List ℕ
  attempts : ℕ

/-- The `COIN_ID_MAP` dict of `volatility_tracker.py`. -/
def COIN_ID_MAP : List (String × String) :=
  [("DAI", "dai"), ("USDC", "usd-coin"), ("USDT", "tether"),
   ("USDD", "usdd"), ("FDUSD", "first-digital-usd"),
   ("USDC.e", "bridged-usdc-polygon-pos-bridge"),
   ("USDe", "ethena-usde"), ("USDJ", "just-stablecoin")]

/-- The `while current_retry < max_retries` loop of `fetch_coingecko_data`,
driven by an environment giving the response of attempt `i`; the fuel is
`max_retries - current_retry`.  200 returns the table; 429 sleeps for
`Retry-After` (default 60), increments the retry counter and continues; any
other status or an exception returns `None` at once. -/
def fetchLoop (env : ℕ → ApiResponse) : ℕ → ℕ → FetchTrace
  | _, 0 => ⟨none, [], 0⟩
  | i, fuel + 1 =>
    match env i with
    | .ok rows => ⟨some rows, [], 1⟩
    | .rateLimited ra =>
      let retry_after := ra.getD 60
      let rest := fetchLoop env (i + 1) fuel
      ⟨rest.result, retry_after :: rest.sleeps, rest.attempts + 1⟩
    | .failStatus _ => ⟨none, [], 1⟩
    | .exn => ⟨none, [], 1⟩

/-- `VolatilityTracker.fetch_coingecko_data`: symbols without a `COIN_ID_MAP`
entry are rejected before any network call; otherwise the retry loop runs with
`max_retries = 3`. -/
def fetch_coingecko_data (symbol : String) (env : ℕ → ApiResponse) :
    FetchTrace :=
  if (COIN_ID_MAP.lookup symbol).isSome then fetchLoop env 0 3
  else ⟨none, [], 0⟩

lemma fetchLoop_attempts_le (env : ℕ → ApiResponse) :
    ∀ fuel i, (fetchLoop env i fuel).attempts ≤ fuel := by
  intro fuel
  induction fuel with
  | zero => intro i; exact Nat.le_refl 0
  | succ n ih =>
    intro i
    unfold fetchLoop
    cases env i with
    | ok rows => exact Nat.succ_le_succ (Nat.zero_le n)
    | rateLimited ra => exact Nat.succ_le_succ (ih (i + 1))
    | failStatus c => exact Nat.succ_le_succ (Nat.zero_le n)
    | exn => exact Nat.succ_le_succ (Nat.zero_le n)

lemma isRL_elim {r : ApiResponse} (h : r.isRL = true) :
    ∃ ra, r = .rateLimited ra := by
  cases r with
  | rateLimited ra => exact ⟨ra, rfl⟩
  | ok rows => simp [ApiResponse.isRL] at h
  | failStatus c => simp [ApiResponse.isRL] at h
  | exn => simp [ApiResponse.isRL] at h

/-- C5.  The fetch retries only on HTTP 429, sleeping the server-suggested
`Retry-After` (default 60 s), making at most 3 requests in total and returning
nothing after 3 rate-limited attempts; any other failure status or exception
returns nothing at once, with no retry and no sleep; and a 429 carrying
`Retry-After: 5` causes exactly one 5-second sleep before the next attempt. -/
theorem fetch_coingecko_retry_policy (env : ℕ → ApiResponse) :
    (fetch_coingecko_data "USDT" env).attempts ≤ 3 ∧
    (∀ rows, env 0 = .ok rows →
      fetch_coingecko_data "USDT" env = ⟨some rows, [], 1⟩) ∧
    (∀ c, env 0 = .failStatus c →
      fetch_coingecko_data "USDT" env = ⟨none, [], 1⟩) ∧
    (env 0 = .exn → fetch_coingecko_data "USDT" env = ⟨none, [], 1⟩) ∧
    ((env 0).isRL = true → (env 1).isRL = true → (env 2).isRL = true →
      (fetch_coingecko_data "USDT" env).result = none ∧
      (fetch_coingecko_data "USDT" env).attempts = 3) ∧
    (∀ rows, env 0 = .rateLimited (some 5) → env 1 = .ok rows →
      fetch_coingecko_data "USDT" env = ⟨some rows, [5], 2⟩) ∧
    (∀ rows, env 0 = .rateLimited none → env 1 = .ok rows →
      fetch_coingecko_data "USDT" env = ⟨some rows, [60], 2⟩) := by
  have hmap : fetch_coingecko_data "USDT" env = fetchLoop env 0 3 := rfl
  rw [hmap]
  refine ⟨fetchLoop_attempts_le env 3 0, ?_, ?_, ?_, ?_, ?_, ?_⟩
  · intro rows h0; unfold fetchLoop; rw [h0]
  · intro c h0; unfold fetchLoop; rw [h0]
  · intro h0; unfold fetchLoop; rw [h0]
  · intro h0 h1 h2
    obtain ⟨ra0, h0⟩ := isRL_elim h0
    obtain ⟨ra1, h1⟩ := isRL_elim h1
    obtain ⟨ra2, h2⟩ := isRL_elim h2
    unfold fetchLoop
    rw [h0]
    unfold fetchLoop
    rw [h1]
    unfold fetchLoop
    rw [h2]
    exact ⟨rfl, rfl⟩
  · intro rows h0 h1
    unfold fetchLoop
    rw [h0]
    unfold fetchLoop
    rw [h1]
    rfl
  · intro rows h0 h1
    unfold fetchLoop
    rw [h0]
    unfold fetchLoop
    rw [h1]
    rfl

/-- Response environment for the C5 witness: a 429 with `Retry-After: 5`,
then a successful response. -/
def envW : ℕ → ApiResponse
  | 0 => .rateLimited (some 5)
  | _ => .ok []

/-- C5 witness: against `envW` the fetch sleeps exactly once for 5 seconds and
succeeds on the second attempt. -/
theorem fetch_coingecko_retry_policy_witness :
    fetch_coingecko_data "USDT" envW = ⟨some [], [5], 2⟩ :=
  (fetch_coingecko_retry_policy envW).2.2.2.2.2.1 [] rfl rfl

/-! ## C6: the missing-date reconciler -/

/-- `generate_series(start, end, '1 day')` over integer day numbers. -/
def genSeries (start_date end_date : ℤ) : List ℤ :=
  (List.range (end_date - start_date + 1).toNat).map
    (fun i : ℕ => start_date + (i : ℤ))

/-- `VolatilityTracker.get_missing_dates`: every date of the inclusive range
minus those already present for the asset (the subquery restricts to records
of the asset whose date lies `BETWEEN start AND end`). -/
def get_missing_dates (t : List VolRecord) (asset_id : ℕ)
    (start_date end_date : ℤ) : List ℤ :=
  let present := (t.filter (fun r =>
    r.assetId == asset_id &&
      (decide (start_date ≤ r.date) && decide (r.date ≤ end_date)))).map
    (fun r => r.date)
  (genSeries start_date end_date).filter (fun d => decide (d ∉ present))

lemma mem_genSeries {s e d : ℤ} : d ∈ genSeries s e ↔ s ≤ d ∧ d ≤ e := by
  simp only [genSeries, List.mem_map, List.mem_range]
  constructor
  · rintro ⟨i, hi, rfl⟩
    omega
  · intro ⟨h1, h2⟩
    exact ⟨(d - s).toNat, by omega, by omega⟩

/-- Table for the C6 example: asset 7 has records on day 1 (2024-01-02) and
day 3 (2024-01-04), with day 0 = 2024-01-01. -/
def tableC6 : List VolRecord :=
  [⟨7, "DAI", 1, 1, 1, 1, 1, 0, none, 0⟩,
   ⟨7, "DAI", 3, 1, 1, 1, 1, 0, none, 0⟩]

/-- C6.  A date is returned by `get_missing_dates` exactly when it lies in the
inclusive range and the asset has no record on it; on the example table with
records on days 1 and 3 and range [0, 3], the result is `[0, 2]`. -/
theorem get_missing_dates_spec :
    (∀ (t : List VolRecord) (a : ℕ) (s e d : ℤ),
      d ∈ get_missing_dates t a s e ↔
        s ≤ d ∧ d ≤ e ∧ ∀ r ∈ t, r.assetId = a → r.date ≠ d) ∧
    get_missing_dates tableC6 7 0 3 = [0, 2] := by
  constructor
  · intro t a s e d
    simp only [get_missing_dates, List.mem_filter, mem_genSeries,
      decide_eq_true_eq, List.mem_map, List.mem_filter, Bool.and_eq_true,
      beq_iff_eq, not_exists, not_and]
    constructor
    · rintro ⟨⟨h1, h2⟩, h3⟩
      refine ⟨h1, h2, ?_⟩
      intro r hr ha hd
      exact h3 r ⟨hr, ha, by omega, by omega⟩ hd
    · rintro ⟨h1, h2, h3⟩
      refine ⟨⟨h1, h2⟩, ?_⟩
      rintro r ⟨hr, ha, -, -⟩ hd
      exact h3 r hr ha hd
  · rfl

/-! ## C8: window concatenation and deduplication -/

/-- `pandas.DataFrame.drop_duplicates(subset=['date'])` with its default
`keep='first'`, written with an accumulator of dates already seen. -/
def dedupByDate (seen : List ℤ) : List OhlcRow → List OhlcRow
  | [] => []
  | r :: rest =>
    if seen.contains r.date then dedupByDate seen rest
    else r :: dedupByDate (r.date :: seen) rest

/-- The combination step of `process_asset`:
`pd.concat([df_recent, df_historical]).drop_duplicates(subset=['date'])`,
the 30-day table first. -/
def combineWindows (df_recent df_historical : List OhlcRow) : List OhlcRow :=
  dedupByDate [] (df_recent ++ df_historical)

lemma contains_true_iff {l : List ℤ} {a : ℤ} :
    l.contains a = true ↔ a ∈ l := List.elem_iff

lemma dedupByDate_find? (l : List OhlcRow) :
    ∀ (seen : List ℤ) (d : ℤ), d ∉ seen →
      (dedupByDate seen l).find? (fun r => r.date == d) =
        l.find? (fun r => r.date == d) := by
  induction l with
  | nil => intro seen d _; rfl
  | cons r rest ih =>
    intro seen d hd
    unfold dedupByDate
    by_cases hr : seen.contains r.date
    · rw [if_pos hr]
      have hne : (r.date == d) = false := by
        simp only [beq_eq_false_iff_ne]
        intro hEq
        exact hd (by simpa [hEq] using (contains_true_iff.mp hr))
      rw [List.find?_cons, hne]
      exact ih seen d hd
    · rw [if_neg hr, List.find?_cons, List.find?_cons]
      by_cases hdr : r.date = d
      · rw [show (r.date == d) = true from beq_iff_eq.2 hdr]
      · rw [show (r.date == d) = false from beq_eq_false_iff_ne.2 hdr]
        exact ih (r.date :: seen) d
          (by simp only [List.mem_cons, not_or]; exact ⟨fun h => hdr h.symm, hd⟩)

lemma dedupByDate_dates (l : List OhlcRow) :
    ∀ seen : List ℤ,
      ((dedupByDate seen l).map (fun r => r.date)).Nodup ∧
      ∀ d : ℤ, d ∈ (dedupByDate seen l).map (fun r => r.date) ↔
        (d ∈ l.map (fun r => r.date) ∧ d ∉ seen) := by
  induction l with
  | nil => intro seen; exact ⟨List.nodup_nil, by simp [dedupByDate]⟩
  | cons r rest ih =>
    intro seen
    unfold dedupByDate
    by_cases hr : seen.contains r.date
    · rw [if_pos hr]
      obtain ⟨hnd, hmem⟩ := ih seen
      refine ⟨hnd, ?_⟩
      intro d
      rw [hmem d, List.map_cons, List.mem_cons]
      constructor
      · rintro ⟨h1, h2⟩; exact ⟨Or.inr h1, h2⟩
      · rintro ⟨h1 | h1, h2⟩
        · exact absurd (h1 ▸ contains_true_iff.mp hr) h2
        · exact ⟨h1, h2⟩
    · rw [if_neg hr]
      obtain ⟨hnd, hmem⟩ := ih (r.date :: seen)
      constructor
      · rw [List.map_cons, List.nodup_cons]
        refine ⟨?_, hnd⟩
        intro hin
        exact ((hmem r.date).1 hin).2 (List.mem_cons_self _ _)
      · intro d
        rw [List.map_cons, List.map_cons, List.mem_cons, List.mem_cons,
          hmem d, List.mem_cons]
        constructor
        · rintro (h1 | ⟨h1, h2⟩)
          · exact ⟨Or.inl h1, h1 ▸ fun hc =>
              hr (contains_true_iff.mpr hc)⟩
          · exact ⟨Or.inr h1, fun hc => h2 (Or.inr hc)⟩
        · rintro ⟨h1 | h1, h2⟩
          · exact Or.inl h1
          · by_cases hdr : d = r.date
            · exact Or.inl hdr
            · exact Or.inr ⟨h1, fun hc => hc.elim hdr h2⟩

/-- C8.  Concatenating the 30-day table with the 365-day table and dropping
duplicate dates yields a table with pairwise-distinct dates covering exactly
the dates of both windows, and the surviving row for each date is the first
match of the concatenation — i.e. the 30-day window's row whenever that window
contains the date, the 365-day window's row otherwise. -/
theorem combineWindows_dedup_spec (a b : List OhlcRow) :
    ((combineWindows a b).map (fun r => r.date)).Nodup ∧
    (∀ d : ℤ, d ∈ (combineWindows a b).map (fun r => r.date) ↔
      d ∈ (a ++ b).map (fun r => r.date)) ∧
    (∀ d : ℤ, (combineWindows a b).find? (fun r => r.date == d) =
      ((a.find? (fun r => r.date == d)).or
        (b.find? (fun r => r.date == d)))) := by
  obtain ⟨hnd, hmem⟩ := dedupByDate_dates (a ++ b) []
  refine ⟨hnd, ?_, ?_⟩
  · intro d
    rw [combineWindows, hmem d]
    simp
  · intro d
    rw [combineWindows, dedupByDate_find? (a ++ b) [] d (List.not_mem_nil d),
      List.find?_append]

/-! ## C9: the price poller's run loop -/

/-- What one tick of `CryptoScraper.run` can encounter: a successfully fetched
and parsed price (then inserted), a fetch/parse/missing-key failure (caught in
`fetch_usdt_price`, which returns `None`), a database error during the insert
(caught by the loop's `except`), or a `KeyboardInterrupt`. -/
inductive TickEvent where
  | priceOk (price : ℝ) (ts : ℕ)
  | fetchFail
  | dbFail
  | interrupt

/-- Whether the event is the operator pressing Ctrl-C. -/
def TickEvent.isInterrupt : TickEvent → Bool
  | .interrupt => true
  | _ => false

/-- Whether the event is a caught-and-logged per-tick failure. -/
def TickEvent.isFailure : TickEvent → Bool
  | .fetchFail => true
  | .dbFail => true
  | _ => false

/-- The `PriceData` row a tick inserts, if any. -/
def tickInsert : TickEvent → Option (ℝ × ℕ)
  | .priceOk p ts => some (p, ts)
  | _ => none

/-- Observable state of the scraper: the `PriceData` rows inserted, the number
of error log lines, the number of completed ticks, and whether the database
connection has been closed. -/
structure ScraperState where
  prices : List (ℝ × ℕ)
  errorsLogged : ℕ
  ticks : ℕ
  connClosed : Bool

/-- One iteration of the `while True` body: a successful tick inserts one row
and commits; a failed tick only logs; both then sleep and continue. -/
def applyTick (s : ScraperState) : TickEvent → ScraperState
  | .priceOk p ts =>
    { s with prices := s.prices ++ [(p, ts)], ticks := s.ticks + 1 }
  | .fetchFail =>
    { s with errorsLogged := s.errorsLogged + 1, ticks := s.ticks + 1 }
  | .dbFail =>
    { s with errorsLogged := s.errorsLogged + 1, ticks := s.ticks + 1 }
  | .interrupt => s

/-- The `while True` loop of `CryptoScraper.run`: only `KeyboardInterrupt`
breaks out; every other event is handled and the loop continues with the next
tick of the event stream. -/
def runLoop (s : ScraperState) : List TickEvent → ScraperState
  | [] => s
  | e :: rest => if e.isInterrupt then s else runLoop (applyTick s e) rest

/-- `CryptoScraper.run` after a successful database connection: run the tick
loop over the event stream, then close the connection in the `finally`. -/
def scraperRun (evs : List TickEvent) : ScraperState :=
  let final := runLoop ⟨[], 0, 0, false⟩ evs
  { final with connClosed := true }

lemma runLoop_spec (evs : List TickEvent) :
    ∀ s : ScraperState,
      (runLoop s evs).ticks =
        s.ticks + (evs.takeWhile (fun e => !e.isInterrupt)).length ∧
      (runLoop s evs).prices =
        s.prices ++ (evs.takeWhile (fun e => !e.isInterrupt)).filterMap
          tickInsert ∧
      (runLoop s evs).errorsLogged =
        s.errorsLogged + ((evs.takeWhile (fun e => !e.isInterrupt)).filter
          TickEvent.isFailure).length ∧
      (runLoop s evs).connClosed = s.connClosed := by
  induction evs with
  | nil => intro s; simp [runLoop]
  | cons e rest ih =>
    intro s
    cases e with
    | priceOk p ts =>
      obtain ⟨h1, h2, h3, h4⟩ := ih (applyTick s (.priceOk p ts))
      refine ⟨?_, ?_, ?_, ?_⟩ <;>
        simp_all [runLoop, TickEvent.isInterrupt, TickEvent.isFailure,
          applyTick, tickInsert, List.takeWhile_cons] <;> omega
    | fetchFail =>
      obtain ⟨h1, h2, h3, h4⟩ := ih (applyTick s .fetchFail)
      refine ⟨?_, ?_, ?_, ?_⟩ <;>
        simp_all [runLoop, TickEvent.isInterrupt, TickEvent.isFailure,
          applyTick, tickInsert, List.takeWhile_cons] <;> omega
    | dbFail =>
      obtain ⟨h1, h2, h3, h4⟩ := ih (applyTick s .dbFail)
      refine ⟨?_, ?_, ?_, ?_⟩ <;>
        simp_all [runLoop, TickEvent.isInterrupt, TickEvent.isFailure,
          applyTick, tickInsert, List.takeWhile_cons] <;> omega
    | interrupt =>
      simp [runLoop, TickEvent.isInterrupt, List.takeWhile_cons,
        TickEvent.isFailure]

/-- C9.  Over any stream of tick events, the run loop completes one tick per
event up to the first operator interruption — fetch, parse, missing-key and
database failures are logged and never terminate the loop — it inserts exactly
one price row per successful tick, and the connection is closed when the loop
ends. -/
theorem scraper_run_resilient (evs : List TickEvent) :
    (scraperRun evs).ticks = (evs.takeWhile (fun e => !e.isInterrupt)).length ∧
    (scraperRun evs).prices =
      (evs.takeWhile (fun e => !e.isInterrupt)).filterMap tickInsert ∧
    (scraperRun evs).errorsLogged =
      ((evs.takeWhile (fun e => !e.isInterrupt)).filter
        TickEvent.isFailure).length ∧
    (scraperRun evs).connClosed = true := by
  obtain ⟨h1, h2, h3, -⟩ := runLoop_spec evs ⟨[], 0, 0, false⟩
  exact ⟨by simpa [scraperRun] using h1, by simpa [scraperRun] using h2,
    by simpa [scraperRun] using h3, rfl⟩

end RiskVol
